import Mathlib

/-!
Verification of the governed task-execution engine: the wave scheduler
in src/agent_coordinator.py (AgentCoordinator) and the policy layer in
src/hook_engine.py (HookMatcher, HookExecutor, HookEngine).

The Python code is shallowly embedded: wall-clock timing, the asyncio
event loop and the external subprocesses are abstracted into explicit
oracle functions (an executor outcome per task, a process outcome per
hook command, a measured duration per task), while all decision logic
(validation, result construction, pattern matching, exit-code
interpretation, group iteration and early returns) is translated
directly from the source.
-/

/-! Section 1: the wave scheduler (AgentCoordinator.spawn_wave and
AgentCoordinator._execute_task). -/

/-- TaskSpec mirrors the task-specification dict accepted by spawn_wave:
keys task, tools, model; absent keys modelled as none.  A present but
empty task string is falsy in Python and is kept distinct from none. -/
structure TaskSpec where
  task : Option String
  tools : Option (List String) := none
  model : Option String := none
  deriving DecidableEq

/-- Echo of the inputs stored in agent_context by _execute_task on the
completed branch. -/
structure AgentContext where
  instruction : String
  tools : Option (List String)
  model : Option String
  deriving DecidableEq

/-- TaskResult from src/agent_coordinator.py, lines 44-72.  duration_ms
is wall-clock time in the source; here it carries the value supplied by
the duration oracle. -/
structure TaskResult where
  task_id : Nat
  status : String
  result : Option String := none
  error : Option String := none
  duration_ms : Option Nat := none
  agent_context : Option AgentContext := none
  deriving DecidableEq

/-- Outcome of one call of the injected executor (_invoke_agent): a
returned payload, a raised exception carrying a message (str(e)), or a
timeout of the executor. -/
inductive ExecOutcome where
  | ok (result : String)
  | err (message : String)
  | timeout
  deriving DecidableEq

/-- The exact error message built by _execute_task when the task field
is absent or empty (src/agent_coordinator.py line 225). -/
def missingTaskError : String := "Missing required \"task\" field in task specification"

/-- The failed TaskResult for a task specification without a usable
task field (src/agent_coordinator.py lines 222-226). -/
def missingResult (id : Nat) : TaskResult :=
  { task_id := id, status := "failed", error := some missingTaskError }

/-- AgentCoordinator._execute_task (src/agent_coordinator.py lines
202-273): validates the task field, then turns the executor outcome
into a completed, timeout or failed TaskResult.  All exceptions are
caught inside, so the function is total. -/
def execute_task (timeout_seconds : Nat) (spec : TaskSpec) (task_id : Nat)
    (outcome : ExecOutcome) (durMs : Nat) : TaskResult :=
  match spec.task with
  | none => missingResult task_id
  | some instr =>
    if instr = "" then missingResult task_id
    else
      match outcome with
      | .ok r =>
        { task_id := task_id, status := "completed", result := some r,
          duration_ms := some durMs,
          agent_context := some ⟨instr, spec.tools, spec.model⟩ }
      | .timeout =>
        { task_id := task_id, status := "timeout",
          error := some ("Task exceeded timeout of " ++ toString timeout_seconds ++ "s") }
      | .err m =>
        { task_id := task_id, status := "failed", error := some m }

/-- enumerate(tasks) starting at n, as used by spawn_wave to pair each
task specification with its submission index. -/
def enumFrom {α : Type} (n : Nat) : List α → List (Nat × α)
  | [] => []
  | x :: xs => (n, x) :: enumFrom (n + 1) xs

/-- The ordered result list produced by the gather loop of spawn_wave:
one TaskResult per submitted task, in submission order.  asyncio.gather
returns results in argument order regardless of completion order, which
the list map reproduces. -/
def waveResults (timeout_seconds : Nat) (execOracle : Nat → TaskSpec → ExecOutcome)
    (durOracle : Nat → Nat) (tasks : List TaskSpec) : List TaskResult :=
  (enumFrom 0 tasks).map
    (fun p => execute_task timeout_seconds p.2 p.1 (execOracle p.1 p.2) (durOracle p.1))

/-- The task ids handed to _execute_task, i.e. the tasks that start
executing during the wave. -/
def executedIds (tasks : List TaskSpec) : List Nat :=
  (enumFrom 0 tasks).map (fun p => p.1)

/-- AgentCoordinator.spawn_wave (src/agent_coordinator.py lines
129-200).  First component: the raised ValueError (as Except.error) or
the processed result list; second component: the ids of the tasks that
were started (empty on the validation error paths, which raise before
any coroutine is created). -/
def spawn_wave (max_concurrent timeout_seconds : Nat)
    (execOracle : Nat → TaskSpec → ExecOutcome) (durOracle : Nat → Nat)
    (tasks : List TaskSpec) : Except String (List TaskResult) × List Nat :=
  if tasks = [] then
    (Except.error "Tasks list cannot be empty", [])
  else if max_concurrent < tasks.length then
    (Except.error ("Cannot spawn " ++ toString tasks.length
        ++ " tasks. Maximum concurrent limit is " ++ toString max_concurrent), [])
  else
    (Except.ok (waveResults timeout_seconds execOracle durOracle tasks), executedIds tasks)

/-! Section 2: the pattern matcher (HookMatcher, src/hook_engine.py
lines 59-132).  Python string operations are modelled on the character
list underlying the Lean String. -/

/-- The test "(" in pattern. -/
def containsChar (c : Char) : List Char → Bool
  | [] => false
  | x :: xs => if x = c then true else containsChar c xs

/-- pattern.split("(", 1) under the guard that a "(" occurs: the
characters before the first occurrence and the characters after it. -/
def splitParen : List Char → List Char × List Char
  | [] => ([], [])
  | x :: xs =>
    if x = '(' then ([], xs)
    else ((splitParen xs).1.cons x, (splitParen xs).2)

/-- s.rstrip(c): remove every trailing occurrence of c. -/
def rstrip (c : Char) (l : List Char) : List Char :=
  ((l.reverse).dropWhile (fun x => decide (x = c))).reverse

/-- s.split(sep) for a one-character separator, keeping empty pieces
exactly as Python does. -/
def pySplit (c : Char) : List Char → List (List Char)
  | [] => [[]]
  | x :: xs =>
    match pySplit c xs with
    | [] => [[]]
    | y :: ys => if x = c then [] :: y :: ys else (x :: y) :: ys

/-- HookMatcher._matches_tool_name (lines 105-111): split the pattern
on the pipe and test membership of the tool name. -/
def matchesToolNameL (pat tool : List Char) : Bool :=
  (pySplit '|' pat).any (fun alt => decide (alt = tool))

/-- HookMatcher._matches_command (lines 113-132): "*" matches any
command, a pattern ending in ":*" matches by literal prefix, otherwise
the pattern must equal the command exactly. -/
def matchesCommandL (pat cmd : List Char) : Bool :=
  if pat = ['*'] then true
  else if [':', '*'].isSuffixOf pat then
    (pat.take (pat.length - 2)).isPrefixOf cmd
  else pat = cmd

/-- HookMatcher.matches_pattern (lines 62-103) on character lists.
Tool arguments are an optional association list standing for the
optional dict; Python's "args and 'command' in args" is the lookup on
the optional list (an empty dict is falsy and has no entry, so both
give the vacuous result). -/
def matchesPatternL (pattern tool : List Char)
    (args : Option (List (String × String))) : Bool :=
  if pattern = ['*'] then true
  else if containsChar '(' pattern then
    if matchesToolNameL (splitParen pattern).1 tool then
      match args.bind (fun m => m.lookup "command") with
      | some cmd => matchesCommandL (rstrip ')' (splitParen pattern).2) cmd.data
      | none => true
    else false
  else matchesToolNameL pattern tool

/-- HookMatcher.matches_pattern on Lean strings. -/
def matches_pattern (pattern tool : String)
    (args : Option (List (String × String))) : Bool :=
  matchesPatternL pattern.data tool.data args

/-- The argument check of the claimed grammar for a parenthesized
pattern A(P): vacuously true when args is absent or has no command
entry, otherwise the sub-pattern P is matched against the command. -/
def argsCommandCheck (P : String) (args : Option (List (String × String))) : Bool :=
  match args.bind (fun m => m.lookup "command") with
  | some cmd => matchesCommandL P.data cmd.data
  | none => true

/-! Section 3: the hook executor (HookExecutor.execute_hook,
src/hook_engine.py lines 135-208) and the policy gate (HookEngine,
lines 250-400).  Running the external command is abstracted into a
ProcOutcome supplied by an oracle; environment substitution only
affects the spawned process and is absorbed by that oracle. -/

/-- ExitCodeResult from src/hook_engine.py lines 18-23. -/
inductive ExitCodeResult where
  | ALLOW
  | BLOCK
  | ERROR
  deriving DecidableEq

/-- HookResult from src/hook_engine.py lines 25-33. -/
structure HookResult where
  exit_code : Int
  stdout : String
  stderr : String
  action : ExitCodeResult
  blocked : Bool
  deriving DecidableEq

/-- CommandHook from src/hook_engine.py lines 35-49, with the defaults
applied by __post_init__. -/
structure CommandHook where
  type : String
  command : String
  args : List String := []
  env : List (String × String) := []
  timeout : Nat := 5000
  continue_on_error : Bool := false
  deriving DecidableEq

/-- HookContext from src/hook_engine.py lines 52-57: exactly the two
fields tool and args, nothing else. -/
structure HookContext where
  tool : String
  args : List (String × String)
  deriving DecidableEq

/-- Outcome of the subprocess.run call inside execute_hook: either the
process finished with an exit code and captured output, or
subprocess.TimeoutExpired was raised. -/
inductive ProcOutcome where
  | completed (exit_code : Int) (stdout : String) (stderr : String)
  | timedOut
  deriving DecidableEq

/-- HookExecutor.execute_hook (lines 138-208): on timeout a fixed error
result with exit code -1; otherwise the fixed exit-code interpretation
0 to allow, 2 to block, anything else to error. -/
def execute_hook (hook : CommandHook) (outcome : ProcOutcome) : HookResult :=
  match outcome with
  | .timedOut =>
    { exit_code := -1, stdout := "",
      stderr := "Hook timed out after " ++ toString hook.timeout ++ "ms",
      action := .ERROR, blocked := false }
  | .completed code out errS =>
    if code = 0 then
      { exit_code := code, stdout := out, stderr := errS, action := .ALLOW, blocked := false }
    else if code = 2 then
      { exit_code := code, stdout := out, stderr := errS, action := .BLOCK, blocked := true }
    else
      { exit_code := code, stdout := out, stderr := errS, action := .ERROR, blocked := false }

/-- The fixed exit-code policy stated by the spec: 0 allows, 2 blocks,
anything else is an error. -/
def interpretExitCode (code : Int) : ExitCodeResult :=
  if code = 0 then .ALLOW else if code = 2 then .BLOCK else .ERROR

/-- One configured group: a matcher pattern and its ordered hooks
(HookGroup in the spec; one entry of a hooks array in the config). -/
structure HookGroupCfg where
  matcher : String
  hooks : List CommandHook
  deriving DecidableEq

/-- The loaded configuration: the ordered group lists that
self.config.get("hooks", {}).get(event, []) returns per event. -/
structure HookConfig where
  PreToolUse : List HookGroupCfg := []
  PostToolUse : List HookGroupCfg := []
  UserPromptSubmit : List HookGroupCfg := []
  Notification : List HookGroupCfg := []
  Stop : List HookGroupCfg := []
  SubagentStop : List HookGroupCfg := []
  PreCompact : List HookGroupCfg := []
  SessionStart : List HookGroupCfg := []
  SessionEnd : List HookGroupCfg := []
  deriving DecidableEq

/-- The implicit allow result returned when no hook blocks
(src/hook_engine.py lines 312-318). -/
def implicitAllow : HookResult :=
  { exit_code := 0, stdout := "", stderr := "", action := .ALLOW, blocked := false }

/-- The inner hook loop of execute_pre_tool_use (lines 290-309): run
each hook of one matching group in order; return the first result that
blocks, or that errors while the hook has continueOnError false.
Besides the early-return value, the executed hooks are collected with
their results. -/
def runGroupHooks (exec : CommandHook → HookContext → ProcOutcome) (ctx : HookContext) :
    List CommandHook → Option HookResult × List (CommandHook × HookResult)
  | [] => (none, [])
  | h :: hs =>
    if (execute_hook h (exec h ctx)).blocked then
      (some (execute_hook h (exec h ctx)), [(h, execute_hook h (exec h ctx))])
    else if (execute_hook h (exec h ctx)).action = .ERROR ∧ h.continue_on_error = false then
      (some (execute_hook h (exec h ctx)), [(h, execute_hook h (exec h ctx))])
    else
      ((runGroupHooks exec ctx hs).1,
        (h, execute_hook h (exec h ctx)) :: (runGroupHooks exec ctx hs).2)

/-- The group loop of execute_pre_tool_use (lines 283-318): skip groups
whose matcher does not match, run the hooks of matching groups in
declaration order, return at the first halting result, and fall through
to the implicit allow. -/
def execute_pre_tool_use_groups (exec : CommandHook → HookContext → ProcOutcome)
    (tool : String) (args : List (String × String)) :
    List HookGroupCfg → HookResult × List (CommandHook × HookResult)
  | [] => (implicitAllow, [])
  | g :: gs =>
    if matches_pattern g.matcher tool (some args) then
      match (runGroupHooks exec ⟨tool, args⟩ g.hooks).1 with
      | some r => (r, (runGroupHooks exec ⟨tool, args⟩ g.hooks).2)
      | none =>
        ((execute_pre_tool_use_groups exec tool args gs).1,
          (runGroupHooks exec ⟨tool, args⟩ g.hooks).2
            ++ (execute_pre_tool_use_groups exec tool args gs).2)
    else execute_pre_tool_use_groups exec tool args gs

/-- HookEngine.execute_pre_tool_use (lines 270-318), instrumented with
the list of executed hooks. -/
def execute_pre_tool_use (cfg : HookConfig) (tool : String)
    (args : List (String × String)) (exec : CommandHook → HookContext → ProcOutcome) :
    HookResult × List (CommandHook × HookResult) :=
  execute_pre_tool_use_groups exec tool args cfg.PreToolUse

/-- First element of a list satisfying a predicate, in order. -/
def findFirst {α : Type} (p : α → Bool) : List α → Option α
  | [] => none
  | x :: xs => if p x then some x else findFirst p xs

/-- The elements visited by a loop that stops right after the first
element satisfying the predicate. -/
def takeThrough {α : Type} (p : α → Bool) : List α → List α
  | [] => []
  | x :: xs => if p x then [x] else x :: takeThrough p xs

/-- A hook halts pre-tool-use evaluation when its result blocks, or
errors while the hook has continueOnError false. -/
def haltsHook (exec : CommandHook → HookContext → ProcOutcome) (ctx : HookContext)
    (h : CommandHook) : Bool :=
  (execute_hook h (exec h ctx)).blocked
    || (decide ((execute_hook h (exec h ctx)).action = .ERROR) && !h.continue_on_error)

/-- The hooks of the groups whose matcher matches the invocation, in
declaration order. -/
def matchingHooks (tool : String) (args : List (String × String)) :
    List HookGroupCfg → List CommandHook
  | [] => []
  | g :: gs =>
    if matches_pattern g.matcher tool (some args) then
      g.hooks ++ matchingHooks tool args gs
    else matchingHooks tool args gs

/-- The claimed gate behaviour: the result of the first halting hook of
the matching groups, in declaration order, or the implicit allow. -/
def gateSpec (exec : CommandHook → HookContext → ProcOutcome) (ctx : HookContext)
    (hooks : List CommandHook) : HookResult :=
  ((findFirst (haltsHook exec ctx) hooks).map (fun h => execute_hook h (exec h ctx))).getD
    implicitAllow

/-! Section 4: lifecycle hooks without tool context
(HookEngine._execute_simple_hooks, src/hook_engine.py lines 382-400,
and its callers, lines 347-380). -/

/-- A raised Python exception crossing the engine boundary. -/
inductive PyError where
  | typeError (message : String)
  deriving DecidableEq

/-- HookContext(tool="", args={}, **env_vars): the dataclass defines
only the fields tool and args, so any extra keyword argument raises a
TypeError before the hook executes. -/
def mkContextWithKwargs (envVars : List (String × String)) : Except PyError HookContext :=
  match envVars with
  | [] => Except.ok { tool := "", args := [] }
  | (k, _) :: _ =>
    Except.error (.typeError ("HookContext got an unexpected keyword argument " ++ k))

/-- The inner loop of _execute_simple_hooks (lines 385-398): build the
context with the event's keyword arguments, execute the hook, and
return at the first result that blocks or errors.  Note the source
checks only result.blocked or result.action == ERROR here; the hook's
continueOnError flag is not consulted on this path. -/
def runSimpleHooks (exec : CommandHook → HookContext → ProcOutcome)
    (envVars : List (String × String)) :
    List CommandHook → Except PyError (Option HookResult × List (CommandHook × HookResult))
  | [] => Except.ok (none, [])
  | h :: hs =>
    match mkContextWithKwargs envVars with
    | .error e => .error e
    | .ok ctx =>
      if (execute_hook h (exec h ctx)).blocked = true
          ∨ (execute_hook h (exec h ctx)).action = .ERROR then
        .ok (some (execute_hook h (exec h ctx)), [(h, execute_hook h (exec h ctx))])
      else
        match runSimpleHooks exec envVars hs with
        | .error e => .error e
        | .ok (res, tr) => .ok (res, (h, execute_hook h (exec h ctx)) :: tr)

/-- The outer group loop of _execute_simple_hooks (lines 384-400):
every group's hooks run (matchers are never consulted), with the same
early return. -/
def execute_simple_hooks_groups (exec : CommandHook → HookContext → ProcOutcome)
    (envVars : List (String × String)) :
    List HookGroupCfg → Except PyError (Option HookResult × List (CommandHook × HookResult))
  | [] => Except.ok (none, [])
  | g :: gs =>
    match runSimpleHooks exec envVars g.hooks with
    | .error e => .error e
    | .ok (some r, tr) => .ok (some r, tr)
    | .ok (none, tr) =>
      match execute_simple_hooks_groups exec envVars gs with
      | .error e => .error e
      | .ok (res, tr2) => .ok (res, tr ++ tr2)

/-- HookEngine.execute_user_prompt_submit (lines 347-350). -/
def execute_user_prompt_submit (cfg : HookConfig) (prompt : String)
    (exec : CommandHook → HookContext → ProcOutcome) :
    Except PyError (Option HookResult × List (CommandHook × HookResult)) :=
  execute_simple_hooks_groups exec [("PROMPT", prompt)] cfg.UserPromptSubmit

/-- HookEngine.execute_notification (lines 352-355). -/
def execute_notification (cfg : HookConfig) (message : String)
    (exec : CommandHook → HookContext → ProcOutcome) :
    Except PyError (Option HookResult × List (CommandHook × HookResult)) :=
  execute_simple_hooks_groups exec [("MESSAGE", message)] cfg.Notification

/-- HookEngine.execute_subagent_stop (lines 362-365). -/
def execute_subagent_stop (cfg : HookConfig) (agentId : String)
    (exec : CommandHook → HookContext → ProcOutcome) :
    Except PyError (Option HookResult × List (CommandHook × HookResult)) :=
  execute_simple_hooks_groups exec [("AGENT_ID", agentId)] cfg.SubagentStop

/-- HookEngine.execute_stop (lines 357-360): no extra keyword
arguments. -/
def execute_stop (cfg : HookConfig) (exec : CommandHook → HookContext → ProcOutcome) :
    Except PyError (Option HookResult × List (CommandHook × HookResult)) :=
  execute_simple_hooks_groups exec [] cfg.Stop

/-- HookEngine.execute_pre_compact (lines 367-370). -/
def execute_pre_compact (cfg : HookConfig) (exec : CommandHook → HookContext → ProcOutcome) :
    Except PyError (Option HookResult × List (CommandHook × HookResult)) :=
  execute_simple_hooks_groups exec [] cfg.PreCompact

/-- HookEngine.execute_session_start (lines 372-375). -/
def execute_session_start (cfg : HookConfig) (exec : CommandHook → HookContext → ProcOutcome) :
    Except PyError (Option HookResult × List (CommandHook × HookResult)) :=
  execute_simple_hooks_groups exec [] cfg.SessionStart

/-- HookEngine.execute_session_end (lines 377-380). -/
def execute_session_end (cfg : HookConfig) (exec : CommandHook → HookContext → ProcOutcome) :
    Except PyError (Option HookResult × List (CommandHook × HookResult)) :=
  execute_simple_hooks_groups exec [] cfg.SessionEnd

/-- All hooks configured for one event, in declared order, matchers
ignored. -/
def allHooks : List HookGroupCfg → List CommandHook
  | [] => []
  | g :: gs => g.hooks ++ allHooks gs

/-- The context built for lifecycle events without extra keyword
arguments. -/
def emptyCtx : HookContext := { tool := "", args := [] }

/-- The halting test the source applies on the simple-hook path: any
blocked or error result stops the loop, whatever continueOnError is. -/
def haltsSimple (exec : CommandHook → HookContext → ProcOutcome) (h : CommandHook) : Bool :=
  (execute_hook h (exec h emptyCtx)).blocked
    || decide ((execute_hook h (exec h emptyCtx)).action = .ERROR)

/-- The amended specification of the simple-hook path: run all
configured hooks in declared order, halting at the first blocked or
error result regardless of continueOnError; matchers are ignored. -/
def simpleSpec (exec : CommandHook → HookContext → ProcOutcome)
    (groups : List HookGroupCfg) :
    Except PyError (Option HookResult × List (CommandHook × HookResult)) :=
  Except.ok
    ((findFirst (haltsSimple exec) (allHooks groups)).map
        (fun h => execute_hook h (exec h emptyCtx)),
      (takeThrough (haltsSimple exec) (allHooks groups)).map
        (fun h => (h, execute_hook h (exec h emptyCtx))))

/-! Section 5: concrete sample values used by witnesses and
counterexamples. -/

/-- Duration oracle measuring zero milliseconds. -/
def durZero : Nat → Nat := fun _ => 0

/-- Executor oracle: every task returns the payload "done". -/
def execAllOk : Nat → TaskSpec → ExecOutcome := fun _ _ => ExecOutcome.ok "done"

/-- Executor oracle: every task raises an exception whose str() is the
empty string, such as RuntimeError(). -/
def execErrEmpty : Nat → TaskSpec → ExecOutcome := fun _ _ => ExecOutcome.err ""

/-- Executor oracle: every task raises an exception with message
"boom". -/
def execErrBoom : Nat → TaskSpec → ExecOutcome := fun _ _ => ExecOutcome.err "boom"

/-- Executor oracle: every task exceeds its deadline. -/
def execAllTimeout : Nat → TaskSpec → ExecOutcome := fun _ _ => ExecOutcome.timeout

/-- A well-formed task specification. -/
def taskA : TaskSpec := { task := some "analyze module A" }

/-- A second well-formed task specification. -/
def taskB : TaskSpec := { task := some "analyze module B" }

/-- A task specification whose task field is missing. -/
def taskNone : TaskSpec := { task := none }

/-- A plain command hook. -/
def sampleHook : CommandHook := { type := "command", command := "echo" }

/-- A hook whose command errors but which asks evaluation to continue. -/
def hookErrCont : CommandHook :=
  { type := "command", command := "lint", continue_on_error := true }

/-- A second hook, expected to run after hookErrCont under the claimed
continue-on-error rule. -/
def hookSecond : CommandHook := { type := "command", command := "fmt" }

/-- Process oracle: every command exits 1 (an error exit). -/
def execExit1 : CommandHook → HookContext → ProcOutcome :=
  fun _ _ => ProcOutcome.completed 1 "" "err"

/-- Process oracle: every command exits 2 (a blocking exit). -/
def execExit2 : CommandHook → HookContext → ProcOutcome :=
  fun _ _ => ProcOutcome.completed 2 "" "denied"

/-- A configuration with one pre-tool-use group whose matcher matches
everything and whose only hook blocks under execExit2. -/
def cfgC7 : HookConfig := { PreToolUse := [{ matcher := "*", hooks := [sampleHook] }] }

/-- A Stop configuration with one group holding an erroring
continue-on-error hook followed by a second hook. -/
def cfgC8 : HookConfig := { Stop := [{ matcher := "*", hooks := [hookErrCont, hookSecond] }] }

/-- A configuration registering one hook under each of the three
keyword-argument lifecycle events. -/
def cfgC10 : HookConfig :=
  { UserPromptSubmit := [{ matcher := "*", hooks := [sampleHook] }],
    Notification := [{ matcher := "*", hooks := [sampleHook] }],
    SubagentStop := [{ matcher := "*", hooks := [sampleHook] }] }

/-! Section 6: helper lemmas. -/

theorem enumFrom_length {α : Type} (n : Nat) (l : List α) :
    (enumFrom n l).length = l.length := by
  induction l generalizing n with
  | nil => rfl
  | cons x xs ih => simp [enumFrom, ih]

theorem waveResults_length (ts : Nat) (exec : Nat → TaskSpec → ExecOutcome)
    (dur : Nat → Nat) (tasks : List TaskSpec) :
    (waveResults ts exec dur tasks).length = tasks.length := by
  simp [waveResults, enumFrom_length]

theorem enumFrom_map_get {β : Type} (f : Nat × TaskSpec → β) (tasks : List TaskSpec) :
    ∀ (n i : Nat) (h : i < tasks.length) (hr : i < ((enumFrom n tasks).map f).length),
      ((enumFrom n tasks).map f).get ⟨i, hr⟩ = f (n + i, tasks.get ⟨i, h⟩) := by
  induction tasks with
  | nil => intro n i h _; exact absurd h (by simp)
  | cons x xs ih =>
    intro n i h hr
    cases i with
    | zero => simp [enumFrom]
    | succ j =>
      have hj : j < xs.length := Nat.lt_of_succ_lt_succ h
      have hr' : j < ((enumFrom (n + 1) xs).map f).length := by
        simp only [List.length_map, enumFrom_length]; exact hj
      have step := ih (n + 1) j hj hr'
      have hcons : ((enumFrom n (x :: xs)).map f).get ⟨j + 1, hr⟩
          = ((enumFrom (n + 1) xs).map f).get ⟨j, hr'⟩ := rfl
      rw [hcons, step]
      have harith : n + 1 + j = n + (j + 1) := by omega
      rw [harith]
      rfl

theorem waveResults_get (ts : Nat) (exec : Nat → TaskSpec → ExecOutcome)
    (dur : Nat → Nat) (tasks : List TaskSpec) (i : Nat) (h : i < tasks.length)
    (hr : i < (waveResults ts exec dur tasks).length) :
    (waveResults ts exec dur tasks).get ⟨i, hr⟩
      = execute_task ts (tasks.get ⟨i, h⟩) i (exec i (tasks.get ⟨i, h⟩)) (dur i) := by
  have := enumFrom_map_get
    (fun p => execute_task ts p.2 p.1 (exec p.1 p.2) (dur p.1)) tasks 0 i h hr
  simpa [waveResults] using this

theorem spawn_wave_ok (mc ts : Nat) (exec : Nat → TaskSpec → ExecOutcome)
    (dur : Nat → Nat) (tasks : List TaskSpec)
    (hne : tasks ≠ []) (hcap : tasks.length ≤ mc) :
    spawn_wave mc ts exec dur tasks
      = (Except.ok (waveResults ts exec dur tasks), executedIds tasks) := by
  unfold spawn_wave
  rw [if_neg hne, if_neg (Nat.not_lt.mpr hcap)]

theorem execute_task_task_id (ts : Nat) (spec : TaskSpec) (id : Nat)
    (oc : ExecOutcome) (d : Nat) : (execute_task ts spec id oc d).task_id = id := by
  cases hspec : spec.task with
  | none => simp [execute_task, hspec, missingResult]
  | some instr =>
    by_cases hi : instr = ""
    · simp [execute_task, hspec, hi, missingResult]
    · cases oc <;> simp [execute_task, hspec, hi]

/-! Section 7: claims about the wave scheduler. -/

/-- Claim C1, counterexample: a wave of 0 tasks satisfies 0 <= cap, yet
spawn_wave does not return a list of 0 results; it raises ValueError
("Tasks list cannot be empty"), so the claim fails at the empty wave. -/
theorem C1_counterexample :
    (spawn_wave 10 300 execAllOk durZero []).1 = Except.error "Tasks list cannot be empty"
    ∧ List.length ([] : List TaskSpec) ≤ 10 :=
  ⟨rfl, by decide⟩

/-- Claim C1 (amended: restricted to non-empty waves, which is
spawn_wave's documented precondition): for every non-empty wave of n
tasks with n not exceeding the concurrency cap, spawn_wave returns
exactly n results and the result at position i has task_id i, so
results are ordered by submission position. -/
theorem C1_spawn_wave_ordered (mc ts : Nat) (exec : Nat → TaskSpec → ExecOutcome)
    (dur : Nat → Nat) (tasks : List TaskSpec)
    (hne : tasks ≠ []) (hcap : tasks.length ≤ mc) :
    ∃ rs, (spawn_wave mc ts exec dur tasks).1 = Except.ok rs
      ∧ rs.length = tasks.length
      ∧ ∀ (i : Nat) (hr : i < rs.length), (rs.get ⟨i, hr⟩).task_id = i := by
  refine ⟨waveResults ts exec dur tasks,
    by rw [spawn_wave_ok mc ts exec dur tasks hne hcap],
    waveResults_length ts exec dur tasks, ?_⟩
  intro i hr
  have h : i < tasks.length := by
    rw [← waveResults_length ts exec dur tasks]; exact hr
  rw [waveResults_get ts exec dur tasks i h hr]
  exact execute_task_task_id ts (tasks.get ⟨i, h⟩) i (exec i (tasks.get ⟨i, h⟩)) (dur i)

/-- Claim C1, witness: the amended theorem applied to a concrete
two-task wave under a cap of 10. -/
theorem C1_witness :
    [taskA, taskB] ≠ ([] : List TaskSpec) ∧ [taskA, taskB].length ≤ 10
    ∧ (∃ rs, (spawn_wave 10 300 execAllOk durZero [taskA, taskB]).1 = Except.ok rs
        ∧ rs.length = [taskA, taskB].length
        ∧ ∀ (i : Nat) (hr : i < rs.length), (rs.get ⟨i, hr⟩).task_id = i) :=
  ⟨by decide, by decide,
    C1_spawn_wave_ordered 10 300 execAllOk durZero [taskA, taskB] (by decide) (by decide)⟩

/-- Claim C2: an empty task list, or more tasks than the concurrency
cap, makes spawn_wave fail with the validation ValueError, and on this
path no task is started and no result is produced. -/
theorem C2_spawn_wave_validation (mc ts : Nat) (exec : Nat → TaskSpec → ExecOutcome)
    (dur : Nat → Nat) (tasks : List TaskSpec)
    (hbad : tasks = [] ∨ mc < tasks.length) :
    (∃ msg, (spawn_wave mc ts exec dur tasks).1 = Except.error msg)
    ∧ (spawn_wave mc ts exec dur tasks).2 = [] := by
  by_cases hemp : tasks = []
  · subst hemp
    exact ⟨⟨"Tasks list cannot be empty", rfl⟩, rfl⟩
  · have hlt : mc < tasks.length := hbad.resolve_left hemp
    constructor
    · refine ⟨"Cannot spawn " ++ toString tasks.length
        ++ " tasks. Maximum concurrent limit is " ++ toString mc, ?_⟩
      simp [spawn_wave, hemp, hlt]
    · simp [spawn_wave, hemp, hlt]

/-- Claim C2, witness: the theorem applied to the empty wave. -/
theorem C2_witness :
    (([] : List TaskSpec) = [] ∨ 10 < ([] : List TaskSpec).length)
    ∧ (∃ msg, (spawn_wave 10 300 execAllOk durZero []).1 = Except.error msg)
    ∧ (spawn_wave 10 300 execAllOk durZero []).2 = [] :=
  ⟨Or.inl rfl,
    (C2_spawn_wave_validation 10 300 execAllOk durZero [] (Or.inl rfl)).1,
    (C2_spawn_wave_validation 10 300 execAllOk durZero [] (Or.inl rfl)).2⟩

/-- Claim C3, counterexample: an executor that raises an exception
whose str() is empty (for example RuntimeError()) yields a failed
result whose error is the empty string, so the claimed non-empty error
message fails at this input. -/
theorem C3_counterexample :
    (spawn_wave 10 300 execErrEmpty durZero [taskA]).1
      = Except.ok [{ task_id := 0, status := "failed", error := some "" }]
    ∧ String.length "" = 0 :=
  ⟨rfl, rfl⟩

/-- Claim C3 (amended: the error message is non-null and equals the
executor's error text, which may be empty): under the preconditions, a
task whose executor errors yields a failed result carrying exactly that
error text; every result is determined by its own task alone, so the
failure does not change any other task's result; and spawn_wave never
propagates the error and returns a complete result list sized to the
input. -/
theorem C3_failed_isolation (mc ts : Nat) (exec : Nat → TaskSpec → ExecOutcome)
    (dur : Nat → Nat) (tasks : List TaskSpec)
    (hne : tasks ≠ []) (hcap : tasks.length ≤ mc) :
    ∃ rs, (spawn_wave mc ts exec dur tasks).1 = Except.ok rs
      ∧ rs.length = tasks.length
      ∧ (∀ (j : Nat) (hj : j < tasks.length) (hr : j < rs.length),
          rs.get ⟨j, hr⟩
            = execute_task ts (tasks.get ⟨j, hj⟩) j (exec j (tasks.get ⟨j, hj⟩)) (dur j))
      ∧ ∀ (i : Nat) (hi : i < tasks.length) (hr : i < rs.length) (instr m : String),
          (tasks.get ⟨i, hi⟩).task = some instr → instr ≠ "" →
          exec i (tasks.get ⟨i, hi⟩) = ExecOutcome.err m →
          (rs.get ⟨i, hr⟩).status = "failed" ∧ (rs.get ⟨i, hr⟩).error = some m := by
  refine ⟨waveResults ts exec dur tasks,
    by rw [spawn_wave_ok mc ts exec dur tasks hne hcap],
    waveResults_length ts exec dur tasks, ?_, ?_⟩
  · intro j hj hr
    exact waveResults_get ts exec dur tasks j hj hr
  · intro i hi hr instr m htask hinstr herr
    have htask2 : tasks[i].task = some instr := by simpa using htask
    rw [waveResults_get ts exec dur tasks i hi hr, herr]
    simp [execute_task, htask2, hinstr]

/-- Claim C3, witness: the amended theorem applied to a one-task wave
whose executor raises an exception with message "boom". -/
theorem C3_witness :
    [taskA] ≠ ([] : List TaskSpec) ∧ [taskA].length ≤ 10
    ∧ (∃ rs, (spawn_wave 10 300 execErrBoom durZero [taskA]).1 = Except.ok rs
        ∧ rs.length = [taskA].length
        ∧ (∀ (j : Nat) (hj : j < [taskA].length) (hr : j < rs.length),
            rs.get ⟨j, hr⟩
              = execute_task 300 ([taskA].get ⟨j, hj⟩) j
                  (execErrBoom j ([taskA].get ⟨j, hj⟩)) (durZero j))
        ∧ ∀ (i : Nat) (hi : i < [taskA].length) (hr : i < rs.length) (instr m : String),
            ([taskA].get ⟨i, hi⟩).task = some instr → instr ≠ "" →
            execErrBoom i ([taskA].get ⟨i, hi⟩) = ExecOutcome.err m →
            (rs.get ⟨i, hr⟩).status = "failed" ∧ (rs.get ⟨i, hr⟩).error = some m) :=
  ⟨by decide, by decide,
    C3_failed_isolation 10 300 execErrBoom durZero [taskA] (by decide) (by decide)⟩

/-- Claim C4: under the preconditions, a task whose executor does not
complete within the timeout yields a result with status timeout (not
failed) and a non-null error message. -/
theorem C4_timeout_result (mc ts : Nat) (exec : Nat → TaskSpec → ExecOutcome)
    (dur : Nat → Nat) (tasks : List TaskSpec)
    (hne : tasks ≠ []) (hcap : tasks.length ≤ mc)
    (i : Nat) (hi : i < tasks.length) (instr : String)
    (htask : (tasks.get ⟨i, hi⟩).task = some instr) (hinstr : instr ≠ "")
    (hto : exec i (tasks.get ⟨i, hi⟩) = ExecOutcome.timeout) :
    ∃ rs, (spawn_wave mc ts exec dur tasks).1 = Except.ok rs
      ∧ rs.length = tasks.length
      ∧ ∀ (hr : i < rs.length),
          (rs.get ⟨i, hr⟩).status = "timeout"
          ∧ (rs.get ⟨i, hr⟩).status ≠ "failed"
          ∧ (rs.get ⟨i, hr⟩).error = some ("Task exceeded timeout of " ++ toString ts ++ "s")
          ∧ (rs.get ⟨i, hr⟩).error ≠ none := by
  refine ⟨waveResults ts exec dur tasks,
    by rw [spawn_wave_ok mc ts exec dur tasks hne hcap],
    waveResults_length ts exec dur tasks, ?_⟩
  intro hr
  have htask2 : tasks[i].task = some instr := by simpa using htask
  have hres : (waveResults ts exec dur tasks).get ⟨i, hr⟩
      = { task_id := i, status := "timeout",
          error := some ("Task exceeded timeout of " ++ toString ts ++ "s") } := by
    rw [waveResults_get ts exec dur tasks i hi hr, hto]
    simp [execute_task, htask2, hinstr]
  rw [hres]
  refine ⟨rfl, ?_, rfl, ?_⟩
  · intro hcontra
    have hbad : "timeout" = "failed" := hcontra
    exact absurd hbad (by decide)
  · intro hcontra
    exact Option.noConfusion hcontra

/-- Claim C4, witness: the theorem applied to a one-task wave whose
executor times out. -/
theorem C4_witness :
    [taskA] ≠ ([] : List TaskSpec) ∧ [taskA].length ≤ 10
    ∧ (∃ rs, (spawn_wave 10 300 execAllTimeout durZero [taskA]).1 = Except.ok rs
        ∧ rs.length = [taskA].length
        ∧ ∀ (hr : 0 < rs.length),
            (rs.get ⟨0, hr⟩).status = "timeout"
            ∧ (rs.get ⟨0, hr⟩).status ≠ "failed"
            ∧ (rs.get ⟨0, hr⟩).error
                = some ("Task exceeded timeout of " ++ toString 300 ++ "s")
            ∧ (rs.get ⟨0, hr⟩).error ≠ none) :=
  ⟨by decide, by decide,
    C4_timeout_result 10 300 execAllTimeout durZero [taskA] (by decide) (by decide)
      0 (by decide) "analyze module A" rfl (by decide) rfl⟩

/-- Claim C9: under the preconditions, a task specification whose task
field is absent or empty yields a failed result with exactly the
message missingTaskError, spawn_wave still returns an ok list sized to
the input, and every other result is determined by its own task alone. -/
theorem C9_missing_task_field (mc ts : Nat) (exec : Nat → TaskSpec → ExecOutcome)
    (dur : Nat → Nat) (tasks : List TaskSpec)
    (hne : tasks ≠ []) (hcap : tasks.length ≤ mc)
    (i : Nat) (hi : i < tasks.length)
    (hmiss : (tasks.get ⟨i, hi⟩).task = none ∨ (tasks.get ⟨i, hi⟩).task = some "") :
    ∃ rs, (spawn_wave mc ts exec dur tasks).1 = Except.ok rs
      ∧ rs.length = tasks.length
      ∧ (∀ (j : Nat) (hj : j < tasks.length) (hr : j < rs.length),
          rs.get ⟨j, hr⟩
            = execute_task ts (tasks.get ⟨j, hj⟩) j (exec j (tasks.get ⟨j, hj⟩)) (dur j))
      ∧ ∀ (hr : i < rs.length),
          (rs.get ⟨i, hr⟩).status = "failed"
          ∧ (rs.get ⟨i, hr⟩).error = some missingTaskError := by
  refine ⟨waveResults ts exec dur tasks,
    by rw [spawn_wave_ok mc ts exec dur tasks hne hcap],
    waveResults_length ts exec dur tasks, ?_, ?_⟩
  · intro j hj hr
    exact waveResults_get ts exec dur tasks j hj hr
  · intro hr
    rw [waveResults_get ts exec dur tasks i hi hr]
    rcases hmiss with h | h
    · have h2 : tasks[i].task = none := by simpa using h
      simp [execute_task, h2, missingResult]
    · have h2 : tasks[i].task = some "" := by simpa using h
      simp [execute_task, h2, missingResult]

/-- Claim C9, witness: the theorem applied to a two-task wave whose
first task specification lacks the task field. -/
theorem C9_witness :
    [taskNone, taskB] ≠ ([] : List TaskSpec) ∧ [taskNone, taskB].length ≤ 10
    ∧ (([taskNone, taskB].get ⟨0, by decide⟩).task = none
        ∨ ([taskNone, taskB].get ⟨0, by decide⟩).task = some "")
    ∧ (∃ rs, (spawn_wave 10 300 execAllOk durZero [taskNone, taskB]).1 = Except.ok rs
        ∧ rs.length = [taskNone, taskB].length
        ∧ (∀ (j : Nat) (hj : j < [taskNone, taskB].length) (hr : j < rs.length),
            rs.get ⟨j, hr⟩
              = execute_task 300 ([taskNone, taskB].get ⟨j, hj⟩) j
                  (execAllOk j ([taskNone, taskB].get ⟨j, hj⟩)) (durZero j))
        ∧ ∀ (hr : 0 < rs.length),
            (rs.get ⟨0, hr⟩).status = "failed"
            ∧ (rs.get ⟨0, hr⟩).error = some missingTaskError) :=
  ⟨by decide, by decide, Or.inl rfl,
    C9_missing_task_field 10 300 execAllOk durZero [taskNone, taskB]
      (by decide) (by decide) 0 (by decide) (Or.inl rfl)⟩

/-! Section 8: pattern-matcher lemmas and claim C5. -/

theorem containsChar_iff (c : Char) (l : List Char) :
    containsChar c l = true ↔ c ∈ l := by
  induction l with
  | nil => simp [containsChar]
  | cons x xs ih =>
    by_cases hx : x = c
    · simp [containsChar, hx]
    · have hcx : ¬c = x := fun h => hx h.symm
      simp [containsChar, hx, ih, List.mem_cons, hcx]

theorem splitParen_append (A rest : List Char) (hA : '(' ∉ A) :
    splitParen (A ++ '(' :: rest) = (A, rest) := by
  induction A with
  | nil => simp [splitParen]
  | cons a as ih =>
    have ha : a ≠ '(' := fun h => hA (h ▸ List.mem_cons_self a as)
    have has : '(' ∉ as := fun h => hA (List.mem_cons_of_mem a h)
    simp [splitParen, ha, ih has]

theorem dropWhile_eq_self_of_not (p : Char → Bool) (l : List Char)
    (h : ∀ x ∈ l, p x = false) : l.dropWhile p = l := by
  cases l with
  | nil => rfl
  | cons x xs => simp [List.dropWhile, h x (List.mem_cons_self x xs)]

theorem rstrip_append (P : List Char) (hP : ')' ∉ P) :
    rstrip ')' (P ++ [')']) = P := by
  have hall : ∀ x ∈ P.reverse, decide (x = ')') = false := by
    intro x hx
    have hxP : x ∈ P := List.mem_reverse.mp hx
    exact decide_eq_false (fun h => hP (h ▸ hxP))
  have key : (P ++ [')']).reverse = ')' :: P.reverse := by simp
  simp only [rstrip, key, List.dropWhile, decide_True]
  rw [dropWhile_eq_self_of_not _ _ hall, List.reverse_reverse]

theorem string_eq_of_data (s t : String) (h : s.data = t.data) : s = t := by
  cases s; cases t; exact congrArg String.mk h

theorem data_append (s t : String) : (s ++ t).data = s.data ++ t.data := by
  cases s; cases t; rfl

/-- Claim C5: matches_pattern implements exactly the claimed grammar.
The universal matcher accepts any tool; a pattern without parentheses
matches exactly when the tool name is one of the pipe-separated
alternatives, ignoring the arguments; a parenthesized pattern A(P)
matches exactly when the tool-name portion matches and the command
check on P succeeds (vacuously true without a command entry); and the
four quoted examples evaluate as stated. -/
theorem C5_pattern_grammar :
    (∀ (tool : String) (args : Option (List (String × String))),
        matches_pattern "*" tool args = true)
    ∧ (∀ (pattern tool : String) (args : Option (List (String × String))),
        pattern ≠ "*" → containsChar '(' pattern.data = false →
        (matches_pattern pattern tool args = true
          ↔ tool.data ∈ pySplit '|' pattern.data))
    ∧ (∀ (A P tool : String) (args : Option (List (String × String))),
        '(' ∉ A.data → ')' ∉ P.data →
        matches_pattern (A ++ "(" ++ P ++ ")") tool args
          = (matchesToolNameL A.data tool.data && argsCommandCheck P args))
    ∧ matches_pattern "*" "AnyTool" none = true
    ∧ matches_pattern "Edit|Write" "Read" none = false
    ∧ matches_pattern "Bash(git push:*)" "Bash"
        (some [("command", "git push origin main")]) = true
    ∧ matches_pattern "Bash(git push:*)" "Bash"
        (some [("command", "git pull")]) = false := by
  refine ⟨?_, ?_, ?_, ?_, ?_, ?_, ?_⟩
  · intro tool args; rfl
  · intro pattern tool args hstar hnp
    have hne : pattern.data ≠ ['*'] := by
      intro hd
      exact hstar (string_eq_of_data pattern "*" (by rw [hd]))
    have hcont : ¬(containsChar '(' pattern.data = true) := by simp [hnp]
    simp only [matches_pattern, matchesPatternL]
    rw [if_neg hne, if_neg hcont]
    simp [matchesToolNameL, List.any_eq_true]
  · intro A P tool args hA hP
    have hdata : (A ++ "(" ++ P ++ ")").data = A.data ++ '(' :: (P.data ++ [')']) := by
      rw [data_append, data_append, data_append]
      rw [show ("(" : String).data = ['('] from rfl, show (")" : String).data = [')'] from rfl]
      simp [List.append_assoc]
    have hmem : '(' ∈ A.data ++ '(' :: (P.data ++ [')']) :=
      List.mem_append_right _ (List.mem_cons_self _ _)
    have hne : A.data ++ '(' :: (P.data ++ [')']) ≠ ['*'] :=
      fun h => absurd (h ▸ hmem) (by decide)
    have hcont : containsChar '(' (A.data ++ '(' :: (P.data ++ [')'])) = true :=
      (containsChar_iff _ _).mpr hmem
    simp only [matches_pattern, matchesPatternL]
    rw [hdata, if_neg hne, if_pos hcont, splitParen_append A.data (P.data ++ [')']) hA]
    cases hb : matchesToolNameL A.data tool.data with
    | false => simp [hb]
    | true =>
      cases hcmd : args.bind (fun m => m.lookup "command") with
      | none => simp [hb, hcmd, argsCommandCheck]
      | some cmd => simp [hb, hcmd, argsCommandCheck, rstrip_append P.data hP]
  · rfl
  · rfl
  · rfl
  · rfl

/-- Claim C5, witness: the parenthesized-pattern case of the grammar
applied to the concrete pattern Bash(git push:*) against the command
git pull, discharging the well-formedness side conditions. -/
theorem C5_witness :
    matches_pattern ("Bash" ++ "(" ++ "git push:*" ++ ")") "Bash"
        (some [("command", "git pull")])
      = (matchesToolNameL ("Bash" : String).data ("Bash" : String).data
          && argsCommandCheck "git push:*" (some [("command", "git pull")])) :=
  C5_pattern_grammar.2.2.1 "Bash" "git push:*" "Bash"
    (some [("command", "git pull")]) (by decide) (by decide)

/-! Section 9: claim C6, the exit-code policy of the hook executor. -/

/-- Claim C6: the action of every hook result is determined solely by
its exit code under the fixed policy (0 allows, 2 blocks, anything else
errors), blocked holds exactly on a block action, and on a command
timeout the result is an error with exit code -1. -/
theorem C6_exit_code_policy (hook : CommandHook) (outcome : ProcOutcome) :
    (execute_hook hook outcome).action = interpretExitCode (execute_hook hook outcome).exit_code
    ∧ (execute_hook hook outcome).blocked
        = decide ((execute_hook hook outcome).action = ExitCodeResult.BLOCK)
    ∧ (outcome = ProcOutcome.timedOut →
        (execute_hook hook outcome).action = ExitCodeResult.ERROR
        ∧ (execute_hook hook outcome).exit_code = -1) := by
  cases outcome with
  | timedOut =>
    refine ⟨?_, rfl, fun _ => ⟨rfl, rfl⟩⟩
    show ExitCodeResult.ERROR = interpretExitCode (-1)
    decide
  | completed code out errS =>
    by_cases h0 : code = 0
    · subst h0
      exact ⟨rfl, rfl, fun hcontra => ProcOutcome.noConfusion hcontra⟩
    · by_cases h2 : code = 2
      · subst h2
        exact ⟨rfl, rfl, fun hcontra => ProcOutcome.noConfusion hcontra⟩
      · have he : execute_hook hook (ProcOutcome.completed code out errS)
            = { exit_code := code, stdout := out, stderr := errS,
                action := ExitCodeResult.ERROR, blocked := false } := by
          simp [execute_hook, h0, h2]
        rw [he]
        refine ⟨?_, rfl, fun hcontra => ProcOutcome.noConfusion hcontra⟩
        show ExitCodeResult.ERROR = interpretExitCode code
        simp [interpretExitCode, h0, h2]

/-- Claim C6, witness: the timeout clause of the theorem at a concrete
hook. -/
theorem C6_witness :
    (execute_hook sampleHook ProcOutcome.timedOut).action = ExitCodeResult.ERROR
    ∧ (execute_hook sampleHook ProcOutcome.timedOut).exit_code = -1 :=
  (C6_exit_code_policy sampleHook ProcOutcome.timedOut).2.2 rfl

/-! Section 10: generic lemmas about findFirst and takeThrough. -/

theorem findFirst_append_of_none {α : Type} (p : α → Bool) (l1 l2 : List α)
    (h : findFirst p l1 = none) : findFirst p (l1 ++ l2) = findFirst p l2 := by
  induction l1 with
  | nil => rfl
  | cons x xs ih =>
    cases hx : p x with
    | true => simp [findFirst, hx] at h
    | false =>
      simp [findFirst, hx] at h ⊢
      exact ih h

theorem findFirst_append_of_some {α : Type} (p : α → Bool) (l1 l2 : List α) (a : α)
    (h : findFirst p l1 = some a) : findFirst p (l1 ++ l2) = some a := by
  induction l1 with
  | nil => simp [findFirst] at h
  | cons x xs ih =>
    cases hx : p x with
    | true =>
      simp [findFirst, hx] at h ⊢
      exact h
    | false =>
      simp [findFirst, hx] at h ⊢
      exact ih h

theorem takeThrough_of_none {α : Type} (p : α → Bool) (l : List α)
    (h : findFirst p l = none) : takeThrough p l = l := by
  induction l with
  | nil => rfl
  | cons x xs ih =>
    cases hx : p x with
    | true => simp [findFirst, hx] at h
    | false =>
      simp [findFirst, hx] at h
      simp [takeThrough, hx, ih h]

theorem takeThrough_append_of_none {α : Type} (p : α → Bool) (l1 l2 : List α)
    (h : findFirst p l1 = none) : takeThrough p (l1 ++ l2) = l1 ++ takeThrough p l2 := by
  induction l1 with
  | nil => rfl
  | cons x xs ih =>
    cases hx : p x with
    | true => simp [findFirst, hx] at h
    | false =>
      simp [findFirst, hx] at h
      simp [takeThrough, hx, ih h]

theorem takeThrough_append_of_some {α : Type} (p : α → Bool) (l1 l2 : List α) (a : α)
    (h : findFirst p l1 = some a) : takeThrough p (l1 ++ l2) = takeThrough p l1 := by
  induction l1 with
  | nil => simp [findFirst] at h
  | cons x xs ih =>
    cases hx : p x with
    | true => simp [takeThrough, hx]
    | false =>
      simp [findFirst, hx] at h
      simp [takeThrough, hx, ih h]

theorem takeThrough_subset {α : Type} (p : α → Bool) (l : List α) (x : α)
    (h : x ∈ takeThrough p l) : x ∈ l := by
  induction l with
  | nil => simp [takeThrough] at h
  | cons y ys ih =>
    cases hy : p y with
    | true =>
      simp [takeThrough, hy] at h
      simp [h]
    | false =>
      simp [takeThrough, hy] at h
      rcases h with h | h
      · simp [h]
      · exact List.mem_cons_of_mem y (ih h)

/-! Section 11: characterization of the pre-tool-use gate and claim C7. -/

theorem runGroupHooks_spec (exec : CommandHook → HookContext → ProcOutcome)
    (ctx : HookContext) (hooks : List CommandHook) :
    (runGroupHooks exec ctx hooks).1
      = (findFirst (haltsHook exec ctx) hooks).map (fun h => execute_hook h (exec h ctx))
    ∧ (runGroupHooks exec ctx hooks).2
      = (takeThrough (haltsHook exec ctx) hooks).map
          (fun h => (h, execute_hook h (exec h ctx))) := by
  induction hooks with
  | nil => exact ⟨rfl, rfl⟩
  | cons h hs ih =>
    cases hblocked : (execute_hook h (exec h ctx)).blocked with
    | true =>
      have hhalt : haltsHook exec ctx h = true := by simp [haltsHook, hblocked]
      constructor
      · simp [runGroupHooks, hblocked, findFirst, hhalt]
      · simp [runGroupHooks, hblocked, takeThrough, hhalt]
    | false =>
      by_cases herr : (execute_hook h (exec h ctx)).action = ExitCodeResult.ERROR
          ∧ h.continue_on_error = false
      · have hhalt : haltsHook exec ctx h = true := by
          simp [haltsHook, hblocked, herr.1, herr.2]
        constructor
        · simp [runGroupHooks, hblocked, herr, findFirst, hhalt]
        · simp [runGroupHooks, hblocked, herr, takeThrough, hhalt]
      · have hhalt : haltsHook exec ctx h = false := by
          simp only [haltsHook, hblocked, Bool.false_or]
          by_cases ha : (execute_hook h (exec h ctx)).action = ExitCodeResult.ERROR
          · have hco : h.continue_on_error = true := by
              cases hco2 : h.continue_on_error with
              | true => rfl
              | false => exact absurd ⟨ha, hco2⟩ herr
            simp [ha, hco]
          · simp [ha]
        constructor
        · simp [runGroupHooks, hblocked, herr, findFirst, hhalt, ih.1]
        · simp [runGroupHooks, hblocked, herr, takeThrough, hhalt, ih.2]

theorem gate_groups_spec (exec : CommandHook → HookContext → ProcOutcome)
    (tool : String) (args : List (String × String)) (groups : List HookGroupCfg) :
    (execute_pre_tool_use_groups exec tool args groups).1
      = gateSpec exec ⟨tool, args⟩ (matchingHooks tool args groups)
    ∧ (execute_pre_tool_use_groups exec tool args groups).2
      = (takeThrough (haltsHook exec ⟨tool, args⟩) (matchingHooks tool args groups)).map
          (fun h => (h, execute_hook h (exec h ⟨tool, args⟩))) := by
  induction groups with
  | nil => exact ⟨rfl, rfl⟩
  | cons g gs ih =>
    by_cases hm : matches_pattern g.matcher tool (some args) = true
    · have hrg := runGroupHooks_spec exec ⟨tool, args⟩ g.hooks
      cases hff : findFirst (haltsHook exec ⟨tool, args⟩) g.hooks with
      | some h0 =>
        have h1 : (runGroupHooks exec ⟨tool, args⟩ g.hooks).1
            = some (execute_hook h0 (exec h0 ⟨tool, args⟩)) := by
          rw [hrg.1, hff]; rfl
        have h2 : (runGroupHooks exec ⟨tool, args⟩ g.hooks).2
            = (takeThrough (haltsHook exec ⟨tool, args⟩) g.hooks).map
                (fun h => (h, execute_hook h (exec h ⟨tool, args⟩))) := hrg.2
        constructor
        · simp only [execute_pre_tool_use_groups, hm, if_true, h1]
          simp only [matchingHooks, hm, if_true, gateSpec,
            findFirst_append_of_some _ _ _ _ hff]
          rfl
        · simp only [execute_pre_tool_use_groups, hm, if_true, h1, h2]
          simp only [matchingHooks, hm, if_true,
            takeThrough_append_of_some _ _ _ _ hff]
      | none =>
        have h1 : (runGroupHooks exec ⟨tool, args⟩ g.hooks).1 = none := by
          rw [hrg.1, hff]; rfl
        have h2 : (runGroupHooks exec ⟨tool, args⟩ g.hooks).2
            = g.hooks.map (fun h => (h, execute_hook h (exec h ⟨tool, args⟩))) := by
          rw [hrg.2, takeThrough_of_none _ _ hff]
        constructor
        · simp only [execute_pre_tool_use_groups, hm, if_true, h1, ih.1]
          simp only [matchingHooks, hm, if_true, gateSpec,
            findFirst_append_of_none _ _ _ hff]
        · simp only [execute_pre_tool_use_groups, hm, if_true, h1, h2, ih.2]
          simp only [matchingHooks, hm, if_true,
            takeThrough_append_of_none _ _ _ hff, List.map_append]
    · have hm2 : matches_pattern g.matcher tool (some args) = false := by
        cases hx : matches_pattern g.matcher tool (some args) with
        | true => exact absurd hx hm
        | false => rfl
      constructor
      · simp only [execute_pre_tool_use_groups, hm2, Bool.false_eq_true, if_false,
          matchingHooks, ih.1]
      · simp only [execute_pre_tool_use_groups, hm2, Bool.false_eq_true, if_false,
          matchingHooks, ih.2]

/-- Claim C7: the pre-tool-use gate runs matching groups' hooks in
declaration order and returns the result of the first hook that blocks
or that errors with continueOnError false; every executed hook belongs
to a matching group (hooks of non-matching groups never run); and when
no matching hook halts evaluation, the gate returns the implicit allow
result (exit code 0, not blocked, folded into gateSpec). -/
theorem C7_policy_gate (cfg : HookConfig) (tool : String)
    (args : List (String × String)) (exec : CommandHook → HookContext → ProcOutcome) :
    (execute_pre_tool_use cfg tool args exec).1
      = gateSpec exec ⟨tool, args⟩ (matchingHooks tool args cfg.PreToolUse)
    ∧ (execute_pre_tool_use cfg tool args exec).2
      = (takeThrough (haltsHook exec ⟨tool, args⟩) (matchingHooks tool args cfg.PreToolUse)).map
          (fun h => (h, execute_hook h (exec h ⟨tool, args⟩)))
    ∧ ∀ pr, pr ∈ (execute_pre_tool_use cfg tool args exec).2 →
        pr.2 = execute_hook pr.1 (exec pr.1 ⟨tool, args⟩)
        ∧ pr.1 ∈ matchingHooks tool args cfg.PreToolUse := by
  have hg := gate_groups_spec exec tool args cfg.PreToolUse
  refine ⟨hg.1, hg.2, ?_⟩
  intro pr hpr
  have hpr2 : pr ∈ (takeThrough (haltsHook exec ⟨tool, args⟩)
      (matchingHooks tool args cfg.PreToolUse)).map
        (fun h => (h, execute_hook h (exec h ⟨tool, args⟩))) := by
    rw [← hg.2]; exact hpr
  rcases List.mem_map.mp hpr2 with ⟨h0, hh0, heq⟩
  subst heq
  exact ⟨rfl, takeThrough_subset _ _ _ hh0⟩

/-- Claim C7, witness: the theorem applied to a configuration with one
universally matching group whose hook blocks; the gate result is the
blocking result. -/
theorem C7_witness :
    (execute_pre_tool_use cfgC7 "Bash" [] execExit2).1
      = gateSpec execExit2 ⟨"Bash", []⟩ (matchingHooks "Bash" [] cfgC7.PreToolUse)
    ∧ (execute_pre_tool_use cfgC7 "Bash" [] execExit2).1.blocked = true :=
  ⟨(C7_policy_gate cfgC7 "Bash" [] execExit2).1, by decide⟩

/-! Section 12: the simple lifecycle-hook path, claims C8 and C10. -/

theorem runSimpleHooks_nil_env (exec : CommandHook → HookContext → ProcOutcome)
    (hooks : List CommandHook) :
    runSimpleHooks exec [] hooks
      = Except.ok
          ((findFirst (haltsSimple exec) hooks).map (fun h => execute_hook h (exec h emptyCtx)),
            (takeThrough (haltsSimple exec) hooks).map
              (fun h => (h, execute_hook h (exec h emptyCtx)))) := by
  induction hooks with
  | nil => rfl
  | cons h hs ih =>
    have hctx : mkContextWithKwargs [] = Except.ok emptyCtx := rfl
    by_cases hhalt : (execute_hook h (exec h emptyCtx)).blocked = true
        ∨ (execute_hook h (exec h emptyCtx)).action = ExitCodeResult.ERROR
    · have hh : haltsSimple exec h = true := by
        rcases hhalt with hb | ha
        · simp [haltsSimple, hb]
        · simp [haltsSimple, ha]
      simp [runSimpleHooks, hctx, hhalt, findFirst, takeThrough, hh]
    · have hb : (execute_hook h (exec h emptyCtx)).blocked = false := by
        cases hx : (execute_hook h (exec h emptyCtx)).blocked with
        | true => exact absurd (Or.inl hx) hhalt
        | false => rfl
      have ha : ¬(execute_hook h (exec h emptyCtx)).action = ExitCodeResult.ERROR :=
        fun ha => hhalt (Or.inr ha)
      have hh : haltsSimple exec h = false := by simp [haltsSimple, hb, ha]
      simp [runSimpleHooks, hctx, hhalt, findFirst, takeThrough, hh, ih]

theorem simple_groups_nil_env (exec : CommandHook → HookContext → ProcOutcome)
    (groups : List HookGroupCfg) :
    execute_simple_hooks_groups exec [] groups = simpleSpec exec groups := by
  induction groups with
  | nil => rfl
  | cons g gs ih =>
    have h1 := runSimpleHooks_nil_env exec g.hooks
    cases hff : findFirst (haltsSimple exec) g.hooks with
    | some h0 =>
      rw [hff] at h1
      simp only [execute_simple_hooks_groups, h1, Option.map_some']
      simp only [simpleSpec, allHooks, findFirst_append_of_some _ _ _ _ hff,
        takeThrough_append_of_some _ _ _ _ hff, Option.map_some']
    | none =>
      rw [hff] at h1
      have hto := takeThrough_of_none _ _ hff
      simp only [execute_simple_hooks_groups, h1, Option.map_none', ih, simpleSpec,
        allHooks, findFirst_append_of_none _ _ _ hff,
        takeThrough_append_of_none _ _ _ hff, hto, List.map_append]

/-- Claim C8, counterexample: under the Stop configuration cfgC8, the
first hook errors (exit 1) and has continue_on_error true, yet the
simple-hook path halts at it and never runs the second hook: the
returned trace contains only the first hook, refuting the claim that an
erroring hook with continue_on_error true does not halt evaluation. -/
theorem C8_counterexample :
    execute_stop cfgC8 execExit1
      = Except.ok
          (some { exit_code := 1, stdout := "", stderr := "err",
                  action := ExitCodeResult.ERROR, blocked := false },
            [(hookErrCont,
               { exit_code := 1, stdout := "", stderr := "err",
                 action := ExitCodeResult.ERROR, blocked := false })])
    ∧ hookErrCont.continue_on_error = true
    ∧ hookErrCont ≠ hookSecond :=
  ⟨rfl, rfl, by decide⟩

/-- Claim C8 (amended: the simple lifecycle path halts on any error
result, regardless of continue_on_error, which it ignores): for the
lifecycle events without tool context (stop, pre-compact,
session-start, session-end), evaluation skips matcher evaluation and
runs every configured hook in declared order, halting exactly at the
first result that blocks or errors, as characterized by simpleSpec. -/
theorem C8_simple_lifecycle (cfg : HookConfig)
    (exec : CommandHook → HookContext → ProcOutcome) :
    execute_stop cfg exec = simpleSpec exec cfg.Stop
    ∧ execute_pre_compact cfg exec = simpleSpec exec cfg.PreCompact
    ∧ execute_session_start cfg exec = simpleSpec exec cfg.SessionStart
    ∧ execute_session_end cfg exec = simpleSpec exec cfg.SessionEnd :=
  ⟨simple_groups_nil_env exec cfg.Stop, simple_groups_nil_env exec cfg.PreCompact,
    simple_groups_nil_env exec cfg.SessionStart, simple_groups_nil_env exec cfg.SessionEnd⟩

theorem simple_groups_kwargs_error (exec : CommandHook → HookContext → ProcOutcome)
    (k v : String) (groups : List HookGroupCfg)
    (hne : ∃ g, g ∈ groups ∧ g.hooks ≠ []) :
    execute_simple_hooks_groups exec [(k, v)] groups
      = Except.error (.typeError ("HookContext got an unexpected keyword argument " ++ k)) := by
  induction groups with
  | nil =>
    rcases hne with ⟨g, hg, _⟩
    exact absurd hg (List.not_mem_nil g)
  | cons g gs ih =>
    cases hh : g.hooks with
    | nil =>
      have hne2 : ∃ g2, g2 ∈ gs ∧ g2.hooks ≠ [] := by
        rcases hne with ⟨g2, hg2, hne2⟩
        rcases List.mem_cons.mp hg2 with heq | hmem
        · subst heq; exact absurd hh hne2
        · exact ⟨g2, hmem, hne2⟩
      simp [execute_simple_hooks_groups, hh, runSimpleHooks, ih hne2]
    | cons h hs =>
      simp [execute_simple_hooks_groups, hh, runSimpleHooks, mkContextWithKwargs]

/-- Claim C10: any configuration registering at least one hook under
UserPromptSubmit, Notification or SubagentStop makes the corresponding
engine method raise a TypeError instead of returning a result, because
the execution context is constructed with a keyword argument (PROMPT,
MESSAGE or AGENT_ID) that the HookContext dataclass does not define. -/
theorem C10_kwargs_type_error (cfg : HookConfig) (prompt message agentId : String)
    (exec : CommandHook → HookContext → ProcOutcome) :
    ((∃ g, g ∈ cfg.UserPromptSubmit ∧ g.hooks ≠ []) →
      execute_user_prompt_submit cfg prompt exec
        = Except.error (.typeError ("HookContext got an unexpected keyword argument "
            ++ "PROMPT")))
    ∧ ((∃ g, g ∈ cfg.Notification ∧ g.hooks ≠ []) →
      execute_notification cfg message exec
        = Except.error (.typeError ("HookContext got an unexpected keyword argument "
            ++ "MESSAGE")))
    ∧ ((∃ g, g ∈ cfg.SubagentStop ∧ g.hooks ≠ []) →
      execute_subagent_stop cfg agentId exec
        = Except.error (.typeError ("HookContext got an unexpected keyword argument "
            ++ "AGENT_ID"))) :=
  ⟨fun h => simple_groups_kwargs_error exec "PROMPT" prompt cfg.UserPromptSubmit h,
    fun h => simple_groups_kwargs_error exec "MESSAGE" message cfg.Notification h,
    fun h => simple_groups_kwargs_error exec "AGENT_ID" agentId cfg.SubagentStop h⟩

/-- Claim C10, witness: the theorem applied to cfgC10, which registers
one hook under UserPromptSubmit. -/
theorem C10_witness :
    (∃ g, g ∈ cfgC10.UserPromptSubmit ∧ g.hooks ≠ [])
    ∧ execute_user_prompt_submit cfgC10 "hello" execExit1
        = Except.error (.typeError ("HookContext got an unexpected keyword argument "
            ++ "PROMPT")) :=
  ⟨by decide,
    (C10_kwargs_type_error cfgC10 "hello" "status update" "agent-1" execExit1).1 (by decide)⟩
